import Mathlib

/-!
Shallow embedding of the binary target encoder from
`examples/structured_data/classification_with_tfdf.py` (class
`BinaryTargetEncoding`), together with proofs of the specified properties.

Modelling choices:
* a fit input is a `List (Nat × Bool)` of (feature-value-index, label) pairs,
  matching the two-column integer tensor `data` (column 0 cast to int64,
  column 1 cast to bool);
* the integer count tensors become `List Nat`; the float32 values produced by
  `call` become `ℚ`, with a dedicated `nan` constructor for the 0/0 division;
* `tf.math.unsorted_segment_sum` over a tensor of ones follows the CPU
  semantics: a segment id at or beyond `num_segments` aborts the op with
  `InvalidArgumentError` (only negative ids would be dropped, and indices here
  are naturals), so `adapt` is fallible and stores no tables on failure;
* `tf.gather_nd` with an out-of-range index (CPU `InvalidArgumentError`) and
  the `== None` unfit check in `call` are likewise surfaced as explicit
  `Except` errors, since each aborts the call with an error reported to the
  caller.
-/

namespace ClassificationWithTfdf

/-- The table produced by a successful unsorted segment sum of ones: entry `v`
counts the occurrences of segment id `v` among `segmentIds`. -/
def segmentCounts (segmentIds : List Nat) (numSegments : Nat) : List Nat :=
  (List.range numSegments).map (fun v => (segmentIds.filter (fun f => f == v)).length)

/-- The error `adapt` can raise: `tf.math.unsorted_segment_sum` on CPU
validates its segment ids and raises `InvalidArgumentError` when one is at or
beyond `num_segments`. -/
inductive AdaptError where
  | segmentIdOutOfRange : AdaptError
deriving DecidableEq

/-- Model of `tf.math.unsorted_segment_sum` applied to a tensor of ones, with
the CPU validation: if every segment id is below `numSegments` the op returns
the per-segment counts, otherwise it aborts with `InvalidArgumentError`. -/
def unsortedSegmentSumOnes (segmentIds : List Nat) (numSegments : Nat) :
    Except AdaptError (List Nat) :=
  if (∀ f ∈ segmentIds, f < numSegments) then
    Except.ok (segmentCounts segmentIds numSegments)
  else Except.error AdaptError.segmentIdOutOfRange

/-- Encoder state: the two lookup tables set by `adapt`, absent (`none`)
while the encoder is unfit. -/
structure BinaryTargetEncoding where
  positive_frequency_lookup : Option (List Nat)
  negative_frequency_lookup : Option (List Nat)
deriving DecidableEq

/-- A freshly constructed encoder: `__init__` sets no lookup attributes. -/
def BinaryTargetEncoding.init : BinaryTargetEncoding := ⟨none, none⟩

/-- The feature values of the pairs whose target label is positive
(`tf.gather_nd` over `tf.where(target_values)`). -/
def positiveFeatureValues (data : List (Nat × Bool)) : List Nat :=
  (data.filter (fun p => p.2)).map Prod.fst

/-- The feature values of the pairs whose target label is negative
(`tf.gather_nd` over `tf.where(tf.math.logical_not(target_values))`). -/
def negativeFeatureValues (data : List (Nat × Bool)) : List Nat :=
  (data.filter (fun p => !p.2)).map Prod.fst

/-- The number of segments used by `adapt`:
`tf.sort(tf.unique(feature_values).y).shape[0]`, i.e. the number of distinct
feature values observed. -/
def vocabularySize (data : List (Nat × Bool)) : Nat :=
  (data.map Prod.fst).dedup.length

/-- The `positive_frequency` tensor a successful `adapt` computes. -/
def positiveFrequency (data : List (Nat × Bool)) : List Nat :=
  segmentCounts (positiveFeatureValues data) (vocabularySize data)

/-- The `negative_frequency` tensor a successful `adapt` computes. -/
def negativeFrequency (data : List (Nat × Bool)) : List Nat :=
  segmentCounts (negativeFeatureValues data) (vocabularySize data)

/-- Model of `BinaryTargetEncoding.adapt`: runs the two segment sums in the
source's order; if either raises, `adapt` aborts with that error and stores
nothing, otherwise both lookup tables are stored, replacing any previous
state. -/
def BinaryTargetEncoding.adapt (_self : BinaryTargetEncoding)
    (data : List (Nat × Bool)) : Except AdaptError BinaryTargetEncoding :=
  match unsortedSegmentSumOnes (positiveFeatureValues data) (vocabularySize data) with
  | Except.error e => Except.error e
  | Except.ok positive_frequency =>
    match unsortedSegmentSumOnes (negativeFeatureValues data) (vocabularySize data) with
    | Except.error e => Except.error e
    | Except.ok negative_frequency =>
      Except.ok ⟨some positive_frequency, some negative_frequency⟩

/-- Model of `BinaryTargetEncoding.reset_state`: sets both lookups to `None`. -/
def BinaryTargetEncoding.reset_state (_self : BinaryTargetEncoding) :
    BinaryTargetEncoding :=
  ⟨none, none⟩

/-- Errors a `call` can report to the caller: the `ValueError` raised when the
lookups are unset, and the CPU out-of-range failure of `tf.gather_nd`. -/
inductive CallError where
  | notFit : CallError
  | outOfRange : CallError
deriving DecidableEq

/-- A float32 value produced by the probability division: either NaN (from
0/0) or an ordinary number, modelled as a rational. -/
inductive FloatVal where
  | nan : FloatVal
  | val : ℚ → FloatVal
deriving DecidableEq

/-- The `positive_probability` column:
`positive_frequency / (positive_frequency + negative_frequency)` in float32,
which is NaN exactly when both frequencies are zero. -/
def positiveProbability (p n : Nat) : FloatVal :=
  if p + n = 0 then FloatVal.nan
  else FloatVal.val ((p : ℚ) / ((p : ℚ) + (n : ℚ)))

/-- The per-row lookup loop of `call`: gathers both frequencies for each input
index and computes the probability; an index outside either table is the
`tf.gather_nd` out-of-range failure. -/
def lookupRows (pos neg : List Nat) : List Nat → Except CallError (List (ℚ × ℚ × FloatVal))
  | [] => Except.ok []
  | v :: vs =>
    if h : v < pos.length ∧ v < neg.length then
      match lookupRows pos neg vs with
      | Except.ok rest =>
          Except.ok ((((pos.get ⟨v, h.1⟩) : ℚ), ((neg.get ⟨v, h.2⟩) : ℚ),
            positiveProbability (pos.get ⟨v, h.1⟩) (neg.get ⟨v, h.2⟩)) :: rest)
      | Except.error e => Except.error e
    else Except.error CallError.outOfRange

/-- Model of `BinaryTargetEncoding.call`: raises the not-fit error when either
lookup is unset, otherwise gathers the three statistics for every input row,
in input order. -/
def BinaryTargetEncoding.call (self : BinaryTargetEncoding) (inputs : List Nat) :
    Except CallError (List (ℚ × ℚ × FloatVal)) :=
  match self.positive_frequency_lookup, self.negative_frequency_lookup with
  | some pos, some neg => lookupRows pos neg inputs
  | _, _ => Except.error CallError.notFit

/-- Quantity named by the spec (not computed by the code): the maximum
feature-value index in the fit input, plus one. -/
def maxIndexPlusOne (data : List (Nat × Bool)) : Nat :=
  (data.map Prod.fst).foldr max 0 + 1

/-- The 19-pair reference dataset used by the source's own test of the
encoder (`data = tf.constant([[0, 1], [2, 0], ...])`). -/
def referenceData : List (Nat × Bool) :=
  [(0, true), (2, false), (0, true), (1, true), (1, true), (2, false),
   (1, false), (0, true), (2, true), (1, false), (0, true), (2, false),
   (0, true), (1, true), (1, true), (2, false), (1, false), (0, true),
   (2, false)]

/-- Entry `v` of a segment-count table, for `v` in range, is the number of
occurrences of `v` among the segment ids. -/
theorem segmentCounts_getD (fs : List Nat) (m v : Nat) (h : v < m) :
    (segmentCounts fs m).getD v 0 = fs.countP (fun f => f == v) := by
  have hlen : v < (segmentCounts fs m).length := by
    simpa [segmentCounts] using h
  rw [List.getD_eq_getElem _ _ hlen]
  simp [segmentCounts, List.countP_eq_length_filter]

theorem length_segmentCounts (fs : List Nat) (m : Nat) :
    (segmentCounts fs m).length = m := by
  simp [segmentCounts]

/-- Splitting a count over a Boolean attribute: the pairs satisfying `q` split
into those also satisfying `r` and those satisfying `!r`. -/
theorem countP_split {α : Type} (l : List α) (q r : α → Bool) :
    l.countP (fun a => q a && r a) + l.countP (fun a => q a && !r a) = l.countP q := by
  induction l with
  | nil => simp
  | cons a l ih =>
    simp only [List.countP_cons]
    cases hq : q a <;> cases hr : r a <;> simp [hq, hr] <;> omega

/-- The two frequency tables of a successful `adapt` count, per in-range
index, the positively and negatively labelled pairs with that index. -/
theorem frequency_getD_eq_countP (data : List (Nat × Bool)) (v : Nat)
    (hv : v < vocabularySize data) :
    (positiveFrequency data).getD v 0 = data.countP (fun p => (p.1 == v) && p.2)
    ∧ (negativeFrequency data).getD v 0 = data.countP (fun p => (p.1 == v) && !p.2) := by
  constructor
  · rw [positiveFrequency, segmentCounts_getD _ _ _ hv,
      positiveFeatureValues, List.countP_map, List.countP_filter]
    rfl
  · rw [negativeFrequency, segmentCounts_getD _ _ _ hv,
      negativeFeatureValues, List.countP_map, List.countP_filter]
    rfl

/-- Count conservation for any in-range index. -/
theorem conservation_core (data : List (Nat × Bool)) (v : Nat)
    (hv : v < vocabularySize data) :
    (positiveFrequency data).getD v 0 + (negativeFrequency data).getD v 0
      = data.countP (fun p => p.1 == v) := by
  rw [(frequency_getD_eq_countP data v hv).1, (frequency_getD_eq_countP data v hv).2]
  exact countP_split data (fun p => p.1 == v) (fun p => p.2)

/-- Every feature value of the fit input lies in exactly one of the two label
partitions that `adapt` builds. -/
theorem mem_feature_split (data : List (Nat × Bool)) (v : Nat) :
    v ∈ data.map Prod.fst ↔
      (v ∈ positiveFeatureValues data ∨ v ∈ negativeFeatureValues data) := by
  simp only [positiveFeatureValues, negativeFeatureValues, List.mem_map,
    List.mem_filter]
  constructor
  · rintro ⟨p, hp, rfl⟩
    cases hb : p.2
    · exact Or.inr ⟨p, ⟨hp, by simp [hb]⟩, rfl⟩
    · exact Or.inl ⟨p, ⟨hp, hb⟩, rfl⟩
  · rintro (⟨p, ⟨hp, -⟩, rfl⟩ | ⟨p, ⟨hp, -⟩, rfl⟩) <;> exact ⟨p, hp, rfl⟩

/-- The fit input is dense iff both label partitions pass the segment-id
validation. -/
theorem dense_iff_split (data : List (Nat × Bool)) (m : Nat) :
    (∀ v ∈ data.map Prod.fst, v < m) ↔
      ((∀ f ∈ positiveFeatureValues data, f < m)
        ∧ (∀ f ∈ negativeFeatureValues data, f < m)) := by
  constructor
  · intro h
    exact ⟨fun f hf => h f ((mem_feature_split data f).mpr (Or.inl hf)),
      fun f hf => h f ((mem_feature_split data f).mpr (Or.inr hf))⟩
  · rintro ⟨h1, h2⟩ v hv
    rcases (mem_feature_split data v).mp hv with h | h
    · exact h1 v h
    · exact h2 v h

/-- Closed form of `adapt`: on a dense zero-based input it stores the two
frequency tables; otherwise the segment-sum validation aborts it with the
out-of-range error and nothing is stored. -/
theorem adapt_eq (e : BinaryTargetEncoding) (data : List (Nat × Bool)) :
    e.adapt data =
      if (∀ v ∈ data.map Prod.fst, v < vocabularySize data) then
        Except.ok ⟨some (positiveFrequency data), some (negativeFrequency data)⟩
      else Except.error AdaptError.segmentIdOutOfRange := by
  unfold BinaryTargetEncoding.adapt unsortedSegmentSumOnes
  by_cases hpos : ∀ f ∈ positiveFeatureValues data, f < vocabularySize data
  · by_cases hneg : ∀ f ∈ negativeFeatureValues data, f < vocabularySize data
    · rw [if_pos hpos, if_pos hneg,
        if_pos ((dense_iff_split data _).mpr ⟨hpos, hneg⟩)]
      rfl
    · rw [if_pos hpos, if_neg hneg,
        if_neg (fun hd => hneg ((dense_iff_split data _).mp hd).2)]
  · rw [if_neg hpos,
      if_neg (fun hd => hpos ((dense_iff_split data _).mp hd).1)]

/-- When every input index is within both tables, the lookup loop succeeds and
returns one row per input, in input order. -/
theorem lookupRows_ok (pos neg : List Nat) (inputs : List Nat)
    (h : ∀ v ∈ inputs, v < pos.length ∧ v < neg.length) :
    lookupRows pos neg inputs = Except.ok (inputs.map (fun v =>
      ((pos.getD v 0 : ℚ), (neg.getD v 0 : ℚ),
        positiveProbability (pos.getD v 0) (neg.getD v 0)))) := by
  induction inputs with
  | nil => rfl
  | cons v vs ih =>
    have hv := h v (List.mem_cons_self v vs)
    rw [lookupRows, dif_pos hv, ih (fun w hw => h w (List.mem_cons_of_mem _ hw))]
    simp [List.getElem?_eq_getElem, hv.1, hv.2]

/-- The lookup loop never reports the not-fit error. -/
theorem lookupRows_ne_notFit (pos neg : List Nat) (inputs : List Nat) :
    lookupRows pos neg inputs ≠ Except.error CallError.notFit := by
  induction inputs with
  | nil => simp [lookupRows]
  | cons v vs ih =>
    rw [lookupRows]
    split
    · cases hrec : lookupRows pos neg vs with
      | ok rest => simp
      | error err => simpa [hrec] using ih
    · simp

/-- If some input index is outside either table, the lookup loop reports the
out-of-range error. -/
theorem lookupRows_out (pos neg : List Nat) (inputs : List Nat) (v : Nat)
    (hv : v ∈ inputs) (h : ¬(v < pos.length ∧ v < neg.length)) :
    lookupRows pos neg inputs = Except.error CallError.outOfRange := by
  induction inputs with
  | nil => cases hv
  | cons w ws ih =>
    rw [lookupRows]
    rcases List.mem_cons.mp hv with hveq | hvmem
    · subst hveq
      exact dif_neg h
    · split
      · rw [ih hvmem]
      · rfl

/-- Claim C6: fitting is idempotent and fully replacing — running `adapt`
again on the state produced by a first `adapt` with the same data yields the
same result as the single call; the result of `adapt` does not depend on the
prior state at all, comprising the case of a state fitted from other data. -/
theorem claim6_adapt_idempotent_replacing (e e₂ : BinaryTargetEncoding)
    (d d₂ : List (Nat × Bool)) :
    ((e.adapt d).bind (fun enc => enc.adapt d) = e.adapt d)
    ∧ (e.adapt d = e₂.adapt d)
    ∧ (∀ enc, e.adapt d₂ = Except.ok enc → enc.adapt d = e₂.adapt d) := by
  refine ⟨?_, rfl, fun enc _ => rfl⟩
  cases h : e.adapt d with
  | ok enc =>
    show enc.adapt d = Except.ok enc
    exact h
  | error err => rfl

/-- Claim C1: on a fit input whose feature-value indices form a dense
zero-based range, `adapt` succeeds and stores the two tables; for every
in-range index `v` the two fitted frequencies for `v` sum to the number of
pairs with index `v`, and for an index actually present in the data the sum
is strictly positive. -/
theorem claim1_count_conservation (e : BinaryTargetEncoding)
    (data : List (Nat × Bool))
    (hdense : ∀ v ∈ data.map Prod.fst, v < vocabularySize data)
    (v : Nat) (hv : v < vocabularySize data) :
    (e.adapt data
      = Except.ok ⟨some (positiveFrequency data), some (negativeFrequency data)⟩)
    ∧ ((positiveFrequency data).getD v 0 + (negativeFrequency data).getD v 0
        = data.countP (fun p => p.1 == v))
    ∧ (v ∈ data.map Prod.fst →
        0 < (positiveFrequency data).getD v 0 + (negativeFrequency data).getD v 0) := by
  refine ⟨by rw [adapt_eq, if_pos hdense], conservation_core data v hv, ?_⟩
  intro hmem
  rw [conservation_core data v hv, List.countP_pos_iff]
  obtain ⟨p, hp, hfst⟩ := List.mem_map.mp hmem
  exact ⟨p, hp, by simp [hfst]⟩

/-- Claim C2: on the 19-pair reference dataset `adapt` succeeds with the
lookup tables `[6, 4, 1]` and `[0, 3, 5]`, and `call [0, 1, 2]` on the fitted
state returns the rows `(6, 0, 1)`, `(4, 3, 4/7)` and `(1, 5, 1/6)`. -/
theorem claim2_reference_scenario :
    (BinaryTargetEncoding.init.adapt referenceData
      = Except.ok ⟨some [6, 4, 1], some [0, 3, 5]⟩)
    ∧ ((BinaryTargetEncoding.mk (some [6, 4, 1]) (some [0, 3, 5])).call [0, 1, 2]
      = Except.ok [((6 : ℚ), (0 : ℚ), FloatVal.val 1),
          ((4 : ℚ), (3 : ℚ), FloatVal.val (4 / 7)),
          ((1 : ℚ), (5 : ℚ), FloatVal.val (1 / 6))]) := by
  constructor
  · have hp : positiveFrequency referenceData = [6, 4, 1] := by decide
    have hn : negativeFrequency referenceData = [0, 3, 5] := by decide
    rw [adapt_eq, if_pos (by decide), hp, hn]
  · show lookupRows [6, 4, 1] [0, 3, 5] [0, 1, 2] = _
    simp [lookupRows, positiveProbability]
    norm_num

/-- Claim C3: an encoder fitted by a successful `adapt` maps a batch of
in-range indices to exactly one row per input, in input order, each row being
the positive frequency, the negative frequency, and their ratio; whenever the
total frequency of an input index is nonzero that ratio is a number between
0 and 1. -/
theorem claim3_encode_rows (e enc : BinaryTargetEncoding)
    (data : List (Nat × Bool)) (inputs : List Nat)
    (hfit : e.adapt data = Except.ok enc)
    (hin : ∀ v ∈ inputs, v < vocabularySize data) :
    (enc.call inputs = Except.ok (inputs.map (fun v =>
      (((positiveFrequency data).getD v 0 : ℚ),
       ((negativeFrequency data).getD v 0 : ℚ),
       positiveProbability ((positiveFrequency data).getD v 0)
         ((negativeFrequency data).getD v 0)))))
    ∧ ((inputs.map (fun v =>
      (((positiveFrequency data).getD v 0 : ℚ),
       ((negativeFrequency data).getD v 0 : ℚ),
       positiveProbability ((positiveFrequency data).getD v 0)
         ((negativeFrequency data).getD v 0)))).length = inputs.length)
    ∧ (∀ v ∈ inputs,
        0 < (positiveFrequency data).getD v 0 + (negativeFrequency data).getD v 0 →
        ∃ q : ℚ, positiveProbability ((positiveFrequency data).getD v 0)
            ((negativeFrequency data).getD v 0) = FloatVal.val q
          ∧ 0 ≤ q ∧ q ≤ 1) := by
  rw [adapt_eq] at hfit
  by_cases hdense : ∀ v ∈ data.map Prod.fst, v < vocabularySize data
  · rw [if_pos hdense] at hfit
    obtain rfl := (Except.ok.inj hfit).symm
    have hlen : ∀ v ∈ inputs,
        v < (positiveFrequency data).length ∧ v < (negativeFrequency data).length := by
      intro v hvmem
      constructor
      · rw [positiveFrequency, length_segmentCounts]
        exact hin v hvmem
      · rw [negativeFrequency, length_segmentCounts]
        exact hin v hvmem
    refine ⟨lookupRows_ok _ _ _ hlen, List.length_map _ _, ?_⟩
    intro v _ hpos
    set p := (positiveFrequency data).getD v 0 with hp
    set n := (negativeFrequency data).getD v 0 with hn
    have hne : p + n ≠ 0 := Nat.pos_iff_ne_zero.mp hpos
    refine ⟨(p : ℚ) / ((p : ℚ) + (n : ℚ)), ?_, ?_, ?_⟩
    · rw [positiveProbability, if_neg hne]
    · positivity
    · rw [div_le_one (by exact_mod_cast hpos)]
      exact_mod_cast Nat.le_add_right p n
  · rw [if_neg hdense] at hfit
    simp at hfit

/-- Claim C4: a freshly constructed encoder and a reset encoder are unfit, and
`call` reports the not-fit error exactly when a lookup table is absent. -/
theorem claim4_not_fit (e : BinaryTargetEncoding) (inputs : List Nat) :
    (BinaryTargetEncoding.init.call inputs = Except.error CallError.notFit)
    ∧ ((e.reset_state).call inputs = Except.error CallError.notFit)
    ∧ (e.call inputs = Except.error CallError.notFit ↔
        (e.positive_frequency_lookup = none ∨ e.negative_frequency_lookup = none)) := by
  obtain ⟨p, n⟩ := e
  refine ⟨rfl, rfl, ?_⟩
  cases p <;> cases n <;>
    simp [BinaryTargetEncoding.call, lookupRows_ne_notFit]

/-- Segment-count tables are invariant under permutation of the segment ids. -/
theorem segmentCounts_perm {fs gs : List Nat} (h : fs.Perm gs) (m : Nat) :
    segmentCounts fs m = segmentCounts gs m := by
  unfold segmentCounts
  refine List.map_congr_left ?_
  intro v _
  rw [← List.countP_eq_length_filter, ← List.countP_eq_length_filter]
  exact h.countP_eq _

/-- Claim C5: fitting is order-independent — permuting the fit pairs yields
the same `adapt` result (identical lookup tables when it succeeds, and the
same error when it fails). -/
theorem claim5_order_independence (e₁ e₂ : BinaryTargetEncoding)
    (d₁ d₂ : List (Nat × Bool)) (h : d₁.Perm d₂) :
    e₁.adapt d₁ = e₂.adapt d₂ := by
  have hvocab : vocabularySize d₁ = vocabularySize d₂ :=
    ((h.map Prod.fst).dedup).length_eq
  have hposv : (positiveFeatureValues d₁).Perm (positiveFeatureValues d₂) :=
    (h.filter _).map _
  have hnegv : (negativeFeatureValues d₁).Perm (negativeFeatureValues d₂) :=
    (h.filter _).map _
  have hdenseIff : (∀ v ∈ d₁.map Prod.fst, v < vocabularySize d₁)
      ↔ (∀ v ∈ d₂.map Prod.fst, v < vocabularySize d₂) := by
    rw [hvocab]
    constructor
    · intro hx v hv
      exact hx v ((h.map Prod.fst).mem_iff.mpr hv)
    · intro hx v hv
      exact hx v ((h.map Prod.fst).mem_iff.mp hv)
  rw [adapt_eq, adapt_eq]
  by_cases hd : ∀ v ∈ d₁.map Prod.fst, v < vocabularySize d₁
  · rw [if_pos hd, if_pos (hdenseIff.mp hd), positiveFrequency, positiveFrequency,
      negativeFrequency, negativeFrequency, hvocab, segmentCounts_perm hposv,
      segmentCounts_perm hnegv]
  · rw [if_neg hd, if_neg (fun hc => hd (hdenseIff.mpr hc))]

theorem foldr_max_le (l : List Nat) (b : Nat) (h : ∀ x ∈ l, x ≤ b) :
    l.foldr max 0 ≤ b := by
  induction l with
  | nil => exact Nat.zero_le b
  | cons x l ih =>
    have hx := h x (List.mem_cons_self x l)
    have hl := ih (fun y hy => h y (List.mem_cons_of_mem _ hy))
    simp only [List.foldr_cons]
    omega

theorem le_foldr_max (l : List Nat) (x : Nat) (h : x ∈ l) :
    x ≤ l.foldr max 0 := by
  induction l with
  | nil => cases h
  | cons y l ih =>
    simp only [List.foldr_cons]
    rcases List.mem_cons.mp h with rfl | hmem
    · omega
    · have := ih hmem
      omega

/-- On a non-empty dense zero-based fit input, the number of distinct feature
values equals the maximum index plus one. -/
theorem dense_vocabularySize_eq (data : List (Nat × Bool)) (hne : data ≠ [])
    (hdense : ∀ v ∈ data.map Prod.fst, v < vocabularySize data) :
    vocabularySize data = maxIndexPlusOne data := by
  have hm1 : 1 ≤ vocabularySize data := by
    rw [vocabularySize]
    have hfs : data.map Prod.fst ≠ [] := by
      simpa [List.map_eq_nil_iff] using hne
    have : (data.map Prod.fst).dedup ≠ [] := by
      simpa [List.dedup_eq_nil] using hfs
    exact List.length_pos.mpr this
  have hsub : (data.map Prod.fst).toFinset ⊆ Finset.range (vocabularySize data) := by
    intro x hx
    exact Finset.mem_range.mpr (hdense x (List.mem_toFinset.mp hx))
  have hcard : (data.map Prod.fst).toFinset.card = vocabularySize data :=
    List.card_toFinset _
  have heq : (data.map Prod.fst).toFinset = Finset.range (vocabularySize data) :=
    Finset.eq_of_subset_of_card_le hsub (by rw [hcard, Finset.card_range])
  have hmem : (vocabularySize data - 1) ∈ data.map Prod.fst := by
    have : (vocabularySize data - 1) ∈ Finset.range (vocabularySize data) :=
      Finset.mem_range.mpr (by omega)
    rw [← heq] at this
    exact List.mem_toFinset.mp this
  have hub : (data.map Prod.fst).foldr max 0 ≤ vocabularySize data - 1 :=
    foldr_max_le _ _ (fun x hx => by have := hdense x hx; omega)
  have hlb : vocabularySize data - 1 ≤ (data.map Prod.fst).foldr max 0 :=
    le_foldr_max _ _ hmem
  rw [maxIndexPlusOne]
  omega

/-- Claim C7 (amended): whenever `adapt` succeeds on a non-empty fit input —
which requires the indices to form a dense zero-based range — the stored
tables are the two frequency tables, their common length is the inferred
vocabulary size, and that size equals both the number of distinct feature
values and the maximum feature-value index plus one. -/
theorem claim7_vocabulary_size (e enc : BinaryTargetEncoding)
    (data : List (Nat × Bool)) (hne : data ≠ [])
    (hfit : e.adapt data = Except.ok enc) :
    (enc.positive_frequency_lookup = some (positiveFrequency data))
    ∧ (enc.negative_frequency_lookup = some (negativeFrequency data))
    ∧ (positiveFrequency data).length = vocabularySize data
    ∧ (negativeFrequency data).length = vocabularySize data
    ∧ vocabularySize data = (data.map Prod.fst).dedup.length
    ∧ vocabularySize data = maxIndexPlusOne data := by
  rw [adapt_eq] at hfit
  by_cases hdense : ∀ v ∈ data.map Prod.fst, v < vocabularySize data
  · rw [if_pos hdense] at hfit
    obtain rfl := (Except.ok.inj hfit).symm
    exact ⟨rfl, rfl, length_segmentCounts _ _, length_segmentCounts _ _, rfl,
      dense_vocabularySize_eq data hne hdense⟩
  · rw [if_neg hdense] at hfit
    simp at hfit

/-- Claim C7 counterexample: on the non-dense input `[(5, true)]` the inferred
vocabulary size (from `tf.unique`) is 1 while the maximum index plus one is 6,
and `adapt` aborts with the out-of-range error before building any table. -/
theorem claim7_counterexample :
    vocabularySize [((5 : Nat), true)] = 1
    ∧ maxIndexPlusOne [((5 : Nat), true)] = 6
    ∧ vocabularySize [((5 : Nat), true)] ≠ maxIndexPlusOne [((5 : Nat), true)]
    ∧ BinaryTargetEncoding.init.adapt [((5 : Nat), true)]
        = Except.error AdaptError.segmentIdOutOfRange :=
  ⟨by decide, by decide, by decide, rfl⟩

/-- Claim C8: on an encoder fitted by a successful `adapt`, a batch containing
an index outside the fitted vocabulary range makes `call` fail with the
out-of-range error. -/
theorem claim8_out_of_range (e enc : BinaryTargetEncoding)
    (data : List (Nat × Bool)) (inputs : List Nat) (v : Nat)
    (hfit : e.adapt data = Except.ok enc)
    (hv : v ∈ inputs) (hout : vocabularySize data ≤ v) :
    enc.call inputs = Except.error CallError.outOfRange := by
  rw [adapt_eq] at hfit
  by_cases hdense : ∀ v ∈ data.map Prod.fst, v < vocabularySize data
  · rw [if_pos hdense] at hfit
    obtain rfl := (Except.ok.inj hfit).symm
    show lookupRows (positiveFrequency data) (negativeFrequency data) inputs = _
    refine lookupRows_out _ _ _ v hv ?_
    rintro ⟨h1, -⟩
    rw [positiveFrequency, length_segmentCounts] at h1
    omega
  · rw [if_neg hdense] at hfit
    simp at hfit

/-- Claim C9: on any fitted state whose tables contain an in-range index with
zero total frequency, `call` still succeeds and returns the NaN sentinel
(with zero frequencies) for that row instead of crashing. -/
theorem claim9_nan_sentinel (pos neg : List Nat) (inputs : List Nat)
    (hin : ∀ w ∈ inputs, w < pos.length ∧ w < neg.length)
    (v : Nat) (hv : v ∈ inputs)
    (hzero : pos.getD v 0 + neg.getD v 0 = 0) :
    ∃ out, (BinaryTargetEncoding.mk (some pos) (some neg)).call inputs
        = Except.ok out
      ∧ ((0 : ℚ), (0 : ℚ), FloatVal.nan) ∈ out := by
  refine ⟨_, lookupRows_ok _ _ _ hin, ?_⟩
  have hp : pos.getD v 0 = 0 := by omega
  have hn : neg.getD v 0 = 0 := by omega
  refine List.mem_map.mpr ⟨v, hv, ?_⟩
  rw [hp, hn]
  simp [positiveProbability]

/-- Claim C10 (amended): on a fit input with an index at or above the
distinct-value count, the segment-sum validation fails, so `adapt` aborts
with the out-of-range error and stores no tables. -/
theorem claim10_non_dense_error (e : BinaryTargetEncoding)
    (data : List (Nat × Bool)) (p : Nat × Bool) (hp : p ∈ data)
    (hbig : vocabularySize data ≤ p.1) :
    e.adapt data = Except.error AdaptError.segmentIdOutOfRange := by
  have hcond : ¬ ∀ v ∈ data.map Prod.fst, v < vocabularySize data := by
    intro hdense
    exact absurd (hdense p.1 (List.mem_map.mpr ⟨p, hp, rfl⟩)) (Nat.not_lt.mpr hbig)
  rw [adapt_eq, if_neg hcond]

/-- Claim C10 counterexample: on the non-dense input `[(0, true), (7, false)]`
fitting does not succeed — `adapt` aborts with the out-of-range error instead
of silently dropping the pair with index 7. -/
theorem claim10_counterexample :
    BinaryTargetEncoding.init.adapt [((0 : Nat), true), (7, false)]
      = Except.error AdaptError.segmentIdOutOfRange := rfl

/-- Witness for claim C6: refitting with `[(0, true)]` after fitting on
`[(1, false)]`, against the prior states fresh and `⟨some [9], none⟩`. -/
theorem claim6_witness :
    ((BinaryTargetEncoding.init.adapt [((0 : Nat), true)]).bind
        (fun enc => enc.adapt [((0 : Nat), true)])
      = BinaryTargetEncoding.init.adapt [((0 : Nat), true)])
    ∧ (BinaryTargetEncoding.init.adapt [((0 : Nat), true)]
      = (BinaryTargetEncoding.mk (some [9]) none).adapt [((0 : Nat), true)])
    ∧ (∀ enc, BinaryTargetEncoding.init.adapt [((1 : Nat), false)] = Except.ok enc →
        enc.adapt [((0 : Nat), true)]
          = (BinaryTargetEncoding.mk (some [9]) none).adapt [((0 : Nat), true)]) :=
  claim6_adapt_idempotent_replacing BinaryTargetEncoding.init
    (BinaryTargetEncoding.mk (some [9]) none)
    [((0 : Nat), true)] [((1 : Nat), false)]

/-- Witness for claim C1 at the dense input `[(0, true), (1, false)]` and
index 0. -/
theorem claim1_witness :
    (BinaryTargetEncoding.init.adapt [((0 : Nat), true), (1, false)]
      = Except.ok ⟨some (positiveFrequency [((0 : Nat), true), (1, false)]),
          some (negativeFrequency [((0 : Nat), true), (1, false)])⟩)
    ∧ ((positiveFrequency [((0 : Nat), true), (1, false)]).getD 0 0
        + (negativeFrequency [((0 : Nat), true), (1, false)]).getD 0 0
        = ([((0 : Nat), true), (1, false)]).countP (fun p => p.1 == 0))
    ∧ ((0 : Nat) ∈ ([((0 : Nat), true), (1, false)]).map Prod.fst →
        0 < (positiveFrequency [((0 : Nat), true), (1, false)]).getD 0 0
          + (negativeFrequency [((0 : Nat), true), (1, false)]).getD 0 0) :=
  claim1_count_conservation BinaryTargetEncoding.init
    [((0 : Nat), true), (1, false)] (by decide) 0 (by decide)

/-- Witness for claim C3 at the fit input `[(0, true)]` and batch `[0]`. -/
theorem claim3_witness :
    ((BinaryTargetEncoding.mk (some [1]) (some [0])).call [0]
      = Except.ok ([0].map (fun v =>
        (((positiveFrequency [((0 : Nat), true)]).getD v 0 : ℚ),
         ((negativeFrequency [((0 : Nat), true)]).getD v 0 : ℚ),
         positiveProbability ((positiveFrequency [((0 : Nat), true)]).getD v 0)
           ((negativeFrequency [((0 : Nat), true)]).getD v 0)))))
    ∧ (([0].map (fun v =>
        (((positiveFrequency [((0 : Nat), true)]).getD v 0 : ℚ),
         ((negativeFrequency [((0 : Nat), true)]).getD v 0 : ℚ),
         positiveProbability ((positiveFrequency [((0 : Nat), true)]).getD v 0)
           ((negativeFrequency [((0 : Nat), true)]).getD v 0)))).length
      = ([0] : List Nat).length)
    ∧ (∀ v ∈ ([0] : List Nat),
        0 < (positiveFrequency [((0 : Nat), true)]).getD v 0
          + (negativeFrequency [((0 : Nat), true)]).getD v 0 →
        ∃ q : ℚ, positiveProbability ((positiveFrequency [((0 : Nat), true)]).getD v 0)
            ((negativeFrequency [((0 : Nat), true)]).getD v 0) = FloatVal.val q
          ∧ 0 ≤ q ∧ q ≤ 1) :=
  claim3_encode_rows BinaryTargetEncoding.init
    (BinaryTargetEncoding.mk (some [1]) (some [0]))
    [((0 : Nat), true)] [0] rfl (by decide)

/-- Witness for claim C5 on a transposition of a two-pair input. -/
theorem claim5_witness :
    BinaryTargetEncoding.init.adapt [((0 : Nat), true), (1, false)]
      = BinaryTargetEncoding.init.adapt [((1 : Nat), false), (0, true)] :=
  claim5_order_independence BinaryTargetEncoding.init BinaryTargetEncoding.init
    [((0 : Nat), true), (1, false)] [((1 : Nat), false), (0, true)] (by decide)

/-- Witness for claim C7 at the dense input `[(0, true), (1, false)]`. -/
theorem claim7_witness :
    ((BinaryTargetEncoding.mk (some [1, 0]) (some [0, 1])).positive_frequency_lookup
      = some (positiveFrequency [((0 : Nat), true), (1, false)]))
    ∧ ((BinaryTargetEncoding.mk (some [1, 0]) (some [0, 1])).negative_frequency_lookup
      = some (negativeFrequency [((0 : Nat), true), (1, false)]))
    ∧ (positiveFrequency [((0 : Nat), true), (1, false)]).length
      = vocabularySize [((0 : Nat), true), (1, false)]
    ∧ (negativeFrequency [((0 : Nat), true), (1, false)]).length
      = vocabularySize [((0 : Nat), true), (1, false)]
    ∧ vocabularySize [((0 : Nat), true), (1, false)]
      = (([((0 : Nat), true), (1, false)]).map Prod.fst).dedup.length
    ∧ vocabularySize [((0 : Nat), true), (1, false)]
      = maxIndexPlusOne [((0 : Nat), true), (1, false)] :=
  claim7_vocabulary_size BinaryTargetEncoding.init
    (BinaryTargetEncoding.mk (some [1, 0]) (some [0, 1]))
    [((0 : Nat), true), (1, false)] (by decide) rfl

/-- Witness for claim C8: querying index 3 after fitting on `[(0, true)]`. -/
theorem claim8_witness :
    (BinaryTargetEncoding.mk (some [1]) (some [0])).call [3]
      = Except.error CallError.outOfRange :=
  claim8_out_of_range BinaryTargetEncoding.init
    (BinaryTargetEncoding.mk (some [1]) (some [0]))
    [((0 : Nat), true)] [3] 3 rfl (by decide) (by decide)

/-- Witness for claim C9: index 1 is within the stored tables `[1, 0]` and
`[0, 0]` but has zero total frequency. -/
theorem claim9_witness :
    ∃ out, (BinaryTargetEncoding.mk (some [1, 0]) (some [0, 0])).call [1]
      = Except.ok out ∧ ((0 : ℚ), (0 : ℚ), FloatVal.nan) ∈ out :=
  claim9_nan_sentinel [1, 0] [0, 0] [1] (by decide) 1 (by decide) (by decide)

/-- Witness for claim C10 at the non-dense input `[(3, true)]`. -/
theorem claim10_witness :
    BinaryTargetEncoding.init.adapt [((3 : Nat), true)]
      = Except.error AdaptError.segmentIdOutOfRange :=
  claim10_non_dense_error BinaryTargetEncoding.init [((3 : Nat), true)]
    (3, true) (by decide) (by decide)

end ClassificationWithTfdf
